import Mathlib

/-!
Verification of the auth-notification subsystem
(`packages/amplify-cli/src/extensions/amplify-helpers/auth-notifications.ts`).

The TypeScript source is shallowly embedded: the parsed GraphQL document,
the feature-flag / CLI-config state, the resource-directory file trees and
the prompt/telemetry effects become explicit Lean data; each exported
function of the source file becomes a Lean function over that data.
External collaborators that live elsewhere in the amplify-cli repository
(amplify-cli-core, amplify-prompts, graphql-transformer-core) are modelled
from the specification, as noted on each such definition.
-/

namespace AuthNotify

/-! ## GraphQL AST model (graphql `DocumentNode` as consumed by the source) -/

/-- GraphQL value node, restricted to the shapes the source inspects:
`kind === NullValue`, `.value === off` (string / enum carry their text),
`.fields` (only object values have them); every other kind behaves like
`otherV` for the checks performed by the source. -/
inductive GqlValue where
  | nullV : GqlValue
  | strV : String → GqlValue
  | enumV : String → GqlValue
  | objectV : List (String × GqlValue) → GqlValue
  | otherV : GqlValue

/-- Directive argument node: a name and a value. -/
structure Argument where
  name : String
  value : GqlValue

/-- Directive node: a name and its argument list (`dir.name.value`,
`dir.arguments`). -/
structure Directive where
  name : String
  arguments : List Argument

/-- Field definition node: `field.type.kind === NonNullType` is the
`nonNull` flag; `field.directives` the attached directives. -/
structure FieldDef where
  name : String
  nonNull : Bool
  directives : List Directive

/-- Type definition node: name, type-level directives and fields
(definitions without fields, e.g. schema definitions, carry `fields = []`,
matching `def.fields || []`). -/
structure Definition where
  name : String
  directives : List Directive
  fields : List FieldDef

/-- Parsed document (`DocumentNode.definitions`). -/
structure Doc where
  definitions : List Definition

/-- JS `Set.add` on the insertion-ordered set modelled as a list. -/
def insertSet (l : List String) (x : String) : List String :=
  if l.contains x then l else l ++ [x]

/-- Field qualification from `hasFieldAuthDirectives`: non-nullable and
carrying an `auth` directive (`hasAuth && nonNullable`). -/
def fieldQualifies (f : FieldDef) : Bool :=
  (f.directives.any fun dir => dir.name == "auth") && f.nonNull

/-- Source `hasFieldAuthDirectives` (lines 224-240): for each definition,
if the filtered qualifying fields are non-empty, add the type name to the
set. -/
def hasFieldAuthDirectives (doc : Doc) : List String :=
  doc.definitions.foldl
    (fun acc d => if 0 < (d.fields.filter fieldQualifies).length then insertSet acc d.name else acc)
    []

/-- Source `hasV2AuthDirectives` (lines 242-253), with the ambient
`FeatureFlags.getNumber (graphqltransformer.transformerversion)` passed
explicitly as `ver`. -/
def hasV2AuthDirectives (ver : Int) (doc : Doc) : Bool :=
  (doc.definitions.any fun d => d.directives.any fun dir => dir.name == "auth") && (ver == 2)

/-- Test from `displayAuthNotification`: `value.kind === NullValue`. -/
def isNullV : GqlValue → Bool
  | .nullV => true
  | _ => false

/-- Test from `displayAuthNotification`: `value.value === off` — only
string and enum values carry a string `.value` that can equal `"off"`. -/
def valueIsOff : GqlValue → Bool
  | .strV s => s == "off"
  | .enumV s => s == "off"
  | _ => false

/-- Argument check inside `displayAuthNotification` (lines 207-216): for
a `subscriptions` argument, true when the value is an explicit null, or
an object one of whose fields is named `level` with value `"off"` or
null; non-`subscriptions` arguments yield `undefined` (falsy). -/
def subscriptionOffArg (a : Argument) : Bool :=
  if a.name == "subscriptions" then
    (match a.value with
     | .objectV fs => fs.any fun p => p.1 == "level" && (valueIsOff p.2 || isNullV p.2)
     | _ => false) || isNullV a.value
  else false

/-- Source `displayAuthNotification` (lines 201-222), with the ambient
transformer-version feature flag passed explicitly as `ver`; `dm` is the
directive map (type name to type-level directives). -/
def displayAuthNotification (ver : Int) (dm : List (String × List Directive))
    (fieldDirectives : List String) : Bool :=
  (dm.any fun p =>
    (match p.2.find? (fun dir => dir.name == "model") with
     | some md => md.arguments.any subscriptionOffArg
     | none => false) && fieldDirectives.contains p.1) && (ver == 2)

/-! ## Membership lemmas for the directive functions -/

theorem mem_insertSet (l : List String) (x t : String) :
    t ∈ insertSet l x ↔ t ∈ l ∨ t = x := by
  unfold insertSet
  split
  · next h =>
    constructor
    · exact fun ht => Or.inl ht
    · rintro (ht | rfl)
      · exact ht
      · simpa using h
  · simp

theorem hasFieldAuthDirectives_go (defs : List Definition) (acc : List String) (t : String) :
    t ∈ defs.foldl
        (fun acc d => if 0 < (d.fields.filter fieldQualifies).length then insertSet acc d.name else acc)
        acc ↔
      t ∈ acc ∨ ∃ d ∈ defs, d.name = t ∧ 0 < (d.fields.filter fieldQualifies).length := by
  induction defs generalizing acc with
  | nil => simp
  | cons d rest ih =>
    simp only [List.foldl_cons, ih, List.mem_cons]
    split
    · next h =>
      rw [mem_insertSet]
      constructor
      · rintro ((ht | rfl) | hex)
        · exact Or.inl ht
        · exact Or.inr ⟨d, Or.inl rfl, rfl, h⟩
        · obtain ⟨d', hd', hp⟩ := hex
          exact Or.inr ⟨d', Or.inr hd', hp⟩
      · rintro (ht | ⟨d', (rfl | hd'), hp⟩)
        · exact Or.inl (Or.inl ht)
        · exact Or.inl (Or.inr hp.1.symm)
        · exact Or.inr ⟨d', hd', hp⟩
    · next h =>
      constructor
      · rintro (ht | hex)
        · exact Or.inl ht
        · obtain ⟨d', hd', hp⟩ := hex
          exact Or.inr ⟨d', Or.inr hd', hp⟩
      · rintro (ht | ⟨d', (rfl | hd'), hp⟩)
        · exact Or.inl ht
        · exact absurd hp.2 h
        · exact Or.inr ⟨d', hd', hp⟩

theorem filter_length_pos {α : Type} (p : α → Bool) (l : List α) :
    0 < (l.filter p).length ↔ ∃ x ∈ l, p x = true := by
  rw [List.length_pos_iff_exists_mem]
  constructor
  · rintro ⟨x, hx⟩
    rw [List.mem_filter] at hx
    exact ⟨x, hx.1, hx.2⟩
  · rintro ⟨x, hx, hp⟩
    exact ⟨x, List.mem_filter.mpr ⟨hx, hp⟩⟩

/-- Claim C5: for every parsed document, `hasFieldAuthDirectives` returns
exactly the set of type names having at least one field that is both
non-nullable and carries an `auth` directive; nullable fields with `auth`
never contribute, and a document with no qualifying field yields the
empty set. -/
theorem c5_hasFieldAuthDirectives_exact (doc : Doc) (t : String) :
    t ∈ hasFieldAuthDirectives doc ↔
      ∃ d ∈ doc.definitions, d.name = t ∧
        ∃ f ∈ d.fields, f.nonNull = true ∧ ∃ dir ∈ f.directives, dir.name = "auth" := by
  unfold hasFieldAuthDirectives
  rw [hasFieldAuthDirectives_go]
  simp only [List.not_mem_nil, false_or]
  constructor
  · rintro ⟨d, hd, rfl, hp⟩
    refine ⟨d, hd, rfl, ?_⟩
    obtain ⟨f, hf, hq⟩ := (filter_length_pos _ _).mp hp
    unfold fieldQualifies at hq
    rw [Bool.and_eq_true] at hq
    obtain ⟨dir, hdir, hdirname⟩ := List.any_eq_true.mp hq.1
    exact ⟨f, hf, hq.2, dir, hdir, by simpa using hdirname⟩
  · rintro ⟨d, hd, rfl, f, hf, hnn, dir, hdir, hdirname⟩
    refine ⟨d, hd, rfl, (filter_length_pos _ _).mpr ⟨f, hf, ?_⟩⟩
    unfold fieldQualifies
    rw [Bool.and_eq_true]
    exact ⟨List.any_eq_true.mpr ⟨dir, hdir, by simpa using hdirname⟩, hnn⟩

/-- Claim C6: `hasV2AuthDirectives` is true iff the transformer version
equals 2 and some type-level definition carries an `auth` directive;
field-level `auth` is ignored and any other version yields false. -/
theorem c6_hasV2AuthDirectives_iff (ver : Int) (doc : Doc) :
    hasV2AuthDirectives ver doc = true ↔
      ver = 2 ∧ ∃ d ∈ doc.definitions, ∃ dir ∈ d.directives, dir.name = "auth" := by
  unfold hasV2AuthDirectives
  simp only [Bool.and_eq_true, List.any_eq_true, beq_iff_eq]
  constructor
  · rintro ⟨⟨d, hd, dir, hdir, hname⟩, hv⟩
    exact ⟨hv, d, hd, dir, hdir, hname⟩
  · rintro ⟨hv, d, hd, dir, hdir, hname⟩
    exact ⟨⟨d, hd, dir, hdir, hname⟩, hv⟩

/-- Specification-side reading of the subscriptions-off condition:
the argument is named `subscriptions` and its value is an explicit null,
or an object with a `level` field whose value is `"off"` or null. -/
def SubscriptionsOffSpec (a : Argument) : Prop :=
  a.name = "subscriptions" ∧
    (a.value = .nullV ∨
      ∃ fs, a.value = .objectV fs ∧
        ∃ p ∈ fs, p.1 = "level" ∧ (p.2 = .strV "off" ∨ p.2 = .enumV "off" ∨ p.2 = .nullV))

theorem subscriptionOffArg_iff (a : Argument) :
    subscriptionOffArg a = true ↔ SubscriptionsOffSpec a := by
  unfold subscriptionOffArg SubscriptionsOffSpec
  split
  · next h =>
    rw [beq_iff_eq] at h
    simp only [h, true_and, Bool.or_eq_true]
    constructor
    · rintro (hobj | hnull)
      · split at hobj
        · next fs heq =>
          obtain ⟨p, hp, hcond⟩ := List.any_eq_true.mp hobj
          rw [Bool.and_eq_true, beq_iff_eq] at hcond
          refine Or.inr ⟨fs, heq ▸ rfl, p, hp, hcond.1, ?_⟩
          have hor := hcond.2
          rw [Bool.or_eq_true] at hor
          rcases hor with hoff | hnl
          · cases hv : p.2 <;> simp [valueIsOff, hv] at hoff <;> simp [hv, hoff]
          · cases hv : p.2 <;> simp [isNullV, hv] at hnl <;> simp [hv]
        · exact absurd hobj (by simp)
      · left
        cases hv : a.value <;> simp [isNullV, hv] at hnull <;> rfl
    · rintro (hnull | ⟨fs, hfs, p, hp, hlevel, hval⟩)
      · right; rw [hnull]; rfl
      · left
        rw [hfs]
        refine List.any_eq_true.mpr ⟨p, hp, ?_⟩
        rw [Bool.and_eq_true, beq_iff_eq]
        refine ⟨hlevel, ?_⟩
        rw [Bool.or_eq_true]
        rcases hval with h | h | h
        · exact Or.inl (by rw [h]; rfl)
        · exact Or.inl (by rw [h]; rfl)
        · exact Or.inr (by rw [h]; rfl)
  · next h =>
    simp only [Bool.false_eq_true, false_iff]
    rintro ⟨hname, -⟩
    exact h (by rw [hname]; rfl)

/-- Claim C7: `displayAuthNotification` is true iff the transformer
version equals 2 and some entry of the directive map has a first `model`
directive with a subscriptions-off argument and a type name contained in
the field-auth set. -/
theorem c7_displayAuthNotification_iff (ver : Int) (dm : List (String × List Directive))
    (fd : List String) :
    displayAuthNotification ver dm fd = true ↔
      ver = 2 ∧ ∃ p ∈ dm,
        (∃ md, p.2.find? (fun dir => dir.name == "model") = some md ∧
          ∃ a ∈ md.arguments, SubscriptionsOffSpec a) ∧ p.1 ∈ fd := by
  unfold displayAuthNotification
  simp only [Bool.and_eq_true, List.any_eq_true, beq_iff_eq]
  constructor
  · rintro ⟨⟨p, hp, hcond⟩, hv⟩
    refine ⟨hv, p, hp, ?_, by simpa using hcond.2⟩
    rcases hfind : p.2.find? (fun dir => dir.name == "model") with _ | md
    · rw [hfind] at hcond
      exact absurd hcond.1 (by simp)
    · rw [hfind] at hcond
      obtain ⟨a, ha, hsub⟩ := List.any_eq_true.mp hcond.1
      exact ⟨md, hfind, a, ha, (subscriptionOffArg_iff a).mp hsub⟩
  · rintro ⟨hv, p, hp, ⟨md, hfind, a, ha, hsub⟩, hmem⟩
    refine ⟨⟨p, hp, ?_⟩, hv⟩
    rw [hfind]
    exact ⟨List.any_eq_true.mpr ⟨a, ha, (subscriptionOffArg_iff a).mpr hsub⟩,
      by simpa using hmem⟩

/-! ## List-query resolver pattern (notifyListQuerySecurityChange, lines 90-97)

The source builds one global regex
`/#set( $filterExpression = ... )\s*(?!\s*#if( $util.isNullOrEmpty($filterExpression) ))/gm`
and calls `.test` on each checked resolver body inside `Array.filter`.
Because the regex carries the `g` flag, `test` starts searching at the
regex's persistent `lastIndex` (set to the end of the previous match on
success and reset to 0 on failure) — this statefulness is embedded
faithfully below. -/

/-- JS `\s` character class (ECMAScript WhiteSpace and LineTerminator). -/
def jsWhitespace (c : Char) : Bool :=
  c == ' ' || c == '\t' || c == '\n' || c == '\r' || c == '\x0b' || c == '\x0c' ||
  c.val == 0x00a0 || c.val == 0x1680 || (0x2000 ≤ c.val && c.val ≤ 0x200a) ||
  c.val == 0x2028 || c.val == 0x2029 || c.val == 0x202f || c.val == 0x205f ||
  c.val == 0x3000 || c.val == 0xfeff

/-- The literal assignment construct of the regex. -/
def setLine : String :=
  "#set( $filterExpression = $util.parseJson($util.transform.toDynamoDBFilterExpression($filter)) )"

/-- The literal guard construct of the negative lookahead. -/
def guardLine : String :=
  "#if( $util.isNullOrEmpty($filterExpression) )"

/-- Match a literal against the head of a string; return the remainder. -/
def stripLit : List Char → List Char → Option (List Char)
  | [], s => some s
  | _ :: _, [] => none
  | c :: cs, x :: xs => if c == x then stripLit cs xs else none

/-- Boolean prefix test. -/
def isPrefixOfL : List Char → List Char → Bool
  | [], _ => true
  | _ :: _, [] => false
  | c :: cs, x :: xs => c == x && isPrefixOfL cs xs

/-- Length of the maximal leading whitespace run and the remainder. -/
def dropWSCount : List Char → Nat × List Char
  | [] => (0, [])
  | c :: cs =>
    if jsWhitespace c then
      let r := dropWSCount cs
      (r.1 + 1, r.2)
    else (0, c :: cs)

/-- Attempt of the pattern `L \s* (?! \s* G)` at the head of `s`; returns
the match length on success.  The backtracking search over how much of
the whitespace run the outer `\s*` consumes collapses: for every split of
the run, the lookahead `\s* G` succeeds on the remainder iff `G` starts
right after the whole run (both literals start with `#`, a
non-whitespace character), so the attempt succeeds iff `G` does not
follow the maximal run, and the greedy match then consumes the whole
run. -/
def attemptAt (s : List Char) : Option Nat :=
  match stripLit setLine.toList s with
  | none => none
  | some r1 =>
    let w := dropWSCount r1
    if isPrefixOfL guardLine.toList w.2 then none
    else some (setLine.toList.length + w.1)

/-- Leftmost match attempt at successive positions starting at absolute
position `pos`; returns the absolute end index of the match. -/
def scanFrom : List Char → Nat → Option Nat
  | s, pos =>
    match attemptAt s with
    | some len => some (pos + len)
    | none =>
      match s with
      | [] => none
      | _ :: rest => scanFrom rest (pos + 1)

/-- `RegExp.prototype.test` for a regex with the `g` flag: search starts
at `lastIndex`; on success the new `lastIndex` is the match end, on
failure it is reset to 0. -/
def regexTestG (s : String) (lastIndex : Nat) : Bool × Nat :=
  match scanFrom (s.toList.drop lastIndex) lastIndex with
  | some e => (true, e)
  | none => (false, 0)

/-- `Array.prototype.filter` over `listQueryPattern.test`, threading the
regex's persistent `lastIndex` through the successive calls. -/
def filterUnsafeGo : List String → Nat → List String
  | [], _ => []
  | r :: rest, li =>
    match regexTestG r li with
    | (true, li2) => r :: filterUnsafeGo rest li2
    | (false, li2) => filterUnsafeGo rest li2

/-- JS `String.prototype.startsWith`. -/
def strStartsWith (s pre : String) : Bool := isPrefixOfL pre.toList s.toList

/-- JS `String.prototype.endsWith`. -/
def strEndsWith (s suf : String) : Bool := isPrefixOfL suf.toList.reverse s.toList.reverse

/-- File-name filter of lines 90-92: name starts with `Query.list` and
ends with `.req.vtl`. -/
def listQueryResolverName (n : String) : Bool :=
  strStartsWith n "Query.list" && strEndsWith n ".req.vtl"

/-- Lines 90-94 of the source: filter the resolver entries by name, keep
the bodies, then filter them through the shared stateful regex. -/
def resolversToSecure (resolvers : List (String × String)) : List String :=
  filterUnsafeGo ((resolvers.filter fun p => listQueryResolverName p.1).map fun p => p.2) 0

/-- Stateless reading of the pattern, following the specification: a
template is unsafe iff it contains the assignment construct not
immediately followed by the null/empty guard (search always starts at
position 0). -/
def unsafeTemplate (r : String) : Bool := (scanFrom r.toList 0).isSome

/-- Specification-side unsafe set: the bodies of the name-matching
entries whose content is an unsafe template. -/
def unsafeBodiesSpec (resolvers : List (String × String)) : List String :=
  ((resolvers.filter fun p => listQueryResolverName p.1).map fun p => p.2).filter unsafeTemplate

/-- A guarded template: the assignment immediately followed by the
null/empty guard. -/
def guardedBody : String := setLine ++ "\n" ++ guardLine ++ "\n#set( $x = 1 )"

/-- Claim C3: the unsafe set computed by lines 90-94 is NOT always the
set of guard-less name-matching template bodies.  Both resolver files
below contain the assignment construct with no guard at all (each body is
unsafe, as `unsafeTemplate` confirms, and the guarded variant is
correctly excluded), yet the computed set contains only the first body:
the `g`-flagged regex's `lastIndex` is left at the end of the first match
and the second `test` call starts searching the second body past its only
occurrence. -/
theorem c3_statefulRegex_divergence :
    resolversToSecure
        [("Query.listA.req.vtl", setLine), ("Query.listB.req.vtl", setLine)] = [setLine] ∧
      unsafeBodiesSpec
        [("Query.listA.req.vtl", setLine), ("Query.listB.req.vtl", setLine)] = [setLine, setLine] ∧
      unsafeTemplate setLine = true ∧
      unsafeTemplate guardedBody = false ∧
      resolversToSecure [("Query.listC.req.vtl", guardedBody)] = [] := by
  refine ⟨by decide, by decide, by decide, by decide, by decide⟩

/-! ## Filesystem model

Directory trees as seen through `fs-extra`: a directory is an ordered
list of named entries (the order `fs.readdir` yields), an entry is a
plain file with its UTF-8 content or a subdirectory. -/

mutual

/-- A directory entry: a plain file (content) or a subdirectory. -/
inductive FSEntry where
  | fileE : String → FSEntry
  | dirE : FSList → FSEntry

/-- An ordered directory listing. -/
inductive FSList where
  | nilE : FSList
  | consE : String → FSEntry → FSList → FSList

end

/-- Hidden-file test of the source: `fileName.indexOf(.) === 0`. -/
def hiddenName (n : String) : Bool := isPrefixOfL [Char.ofNat 46] n.toList

/-- First entry with the given name (real directories have unique
names, so this is the entry `path.join(dir, name)` resolves to). -/
def lookupEntry : FSList → String → Option FSEntry
  | .nilE, _ => none
  | .consE m e rest, n => if m == n then some e else lookupEntry rest n

/-- `fs.existsSync (path.join (dir, name))`. -/
def existsName (l : FSList) (n : String) : Bool := (lookupEntry l n).isSome

/-- Replace the entry of the given name (used to model a write through
the path that was looked up). -/
def replaceEntry : FSList → String → FSEntry → FSList
  | .nilE, _, _ => .nilE
  | .consE m e rest, n, e2 =>
    if m == n then .consE m e2 rest else .consE m e (replaceEntry rest n e2)

/-- Source `loadResolvers` body (lines 62-79): read every non-hidden
entry of the directory as UTF-8 text, keyed by file name, in `readdir`
order; `fs.readFile` on a subdirectory rejects (EISDIR). -/
def readResolverFiles : FSList → Except String (List (String × String))
  | .nilE => .ok []
  | .consE n e rest =>
    if hiddenName n then readResolverFiles rest
    else
      match e with
      | .fileE c => (readResolverFiles rest).map (fun r => (n, c) :: r)
      | .dirE _ => .error "EISDIR"

/-- Source `loadResolvers` (lines 62-79): locate `build/resolvers`
beneath the API resource directory; if `fs.existsSync` is false there,
return the empty map, otherwise read the directory (`fs.readdir` on a
plain file rejects with ENOTDIR). -/
def loadResolvers (apiDir : FSList) : Except String (List (String × String)) :=
  match lookupEntry apiDir "build" with
  | some (.dirE bl) =>
    match lookupEntry bl "resolvers" with
    | some (.dirE rl) => readResolverFiles rl
    | some (.fileE _) => .error "ENOTDIR"
    | none => .ok []
  | _ => .ok []

/-- Source `modifyGraphQLSchemaDirectory` (lines 177-199): walk the
directory in `readdir` order, skip hidden entries; a plain file is
appended one space, ending the whole walk (`return true`), a
subdirectory is recursed into, ending the walk when the recursion
found a file; otherwise the loop continues with the remaining entries.
`some l2` is the updated listing when a file was touched (the source's
`true`); `none` means the source returned `false` leaving every entry
as it was. -/
def touchFirstFile : FSList → Option FSList
  | .nilE => none
  | .consE n e rest =>
    if hiddenName n then
      match touchFirstFile rest with
      | some r2 => some (.consE n e r2)
      | none => none
    else
      match e with
      | .fileE c => some (.consE n (.fileE (c ++ " ")) rest)
      | .dirE sub =>
        match touchFirstFile sub with
        | some sub2 => some (.consE n (.dirE sub2) rest)
        | none =>
          match touchFirstFile rest with
          | some r2 => some (.consE n e r2)
          | none => none

/-- Source `modifyGraphQLSchema` (lines 164-175) on the listing of the
API resource directory: if `schema.graphql` exists append a space to it
(appending to a directory rejects EISDIR on an unawaited promise and
changes nothing), else if `schema` exists walk it with
`modifyGraphQLSchemaDirectory` (`readdir` of a plain file would reject),
else do nothing. -/
def modifyGraphQLSchema (l : FSList) : FSList :=
  if existsName l "schema.graphql" then
    match lookupEntry l "schema.graphql" with
    | some (.fileE c) => replaceEntry l "schema.graphql" (.fileE (c ++ " "))
    | _ => l
  else if existsName l "schema" then
    match lookupEntry l "schema" with
    | some (.dirE sub) =>
      match touchFirstFile sub with
      | some sub2 => replaceEntry l "schema" (.dirE sub2)
      | none => l
    | _ => l
  else l

/-! ## Specification-side description of the directory walk -/

/-- Increment the leading index of a DFS position. -/
def bumpIdx : Option (List Nat × String) → Option (List Nat × String)
  | some (i :: p, c) => some ((i + 1) :: p, c)
  | some ([], c) => some ([], c)
  | none => none

/-- Position (index path) and content of the first non-hidden plain
file in depth-first, `readdir`-order traversal of a listing: a file at
list position `i` has path `[i]`, a file inside the subdirectory at
position `i` has path `i :: q` with `q` its path inside it. -/
def listFirstFile : FSList → Option (List Nat × String)
  | .nilE => none
  | .consE n e rest =>
    if hiddenName n then bumpIdx (listFirstFile rest)
    else
      match e with
      | .fileE c => some ([0], c)
      | .dirE sub =>
        match listFirstFile sub with
        | some (p, c) => some (0 :: p, c)
        | none => bumpIdx (listFirstFile rest)

/-- Append one space to the file at the given index path of a listing;
every other file is unchanged. -/
def listAppendAt : FSList → List Nat → FSList
  | .nilE, _ => .nilE
  | l, [] => l
  | .consE n e rest, 0 :: p =>
    (match e, p with
     | .fileE c, [] => .consE n (.fileE (c ++ " ")) rest
     | .fileE c, _ :: _ => .consE n (.fileE c) rest
     | .dirE sub, q => .consE n (.dirE (listAppendAt sub q)) rest)
  | .consE n e rest, (i + 1) :: p => .consE n e (listAppendAt rest (i :: p))

theorem listAppendAt_nilPath (l : FSList) : listAppendAt l [] = l := by
  cases l <;> rfl

/-! ## Claims C8 and C9 -/

/-- Entry shape test: a plain file. -/
def isFileEntry : FSEntry → Bool
  | .fileE _ => true
  | .dirE _ => false

/-- Every non-hidden entry of the listing is a plain file. -/
def allFilesNonHidden : FSList → Bool
  | .nilE => true
  | .consE n e rest => (hiddenName n || isFileEntry e) && allFilesNonHidden rest

/-- Specification-side map: the non-hidden entries of the directory,
keyed by file name with the file content as value, in `readdir` order. -/
def nonHiddenFilePairs : FSList → List (String × String)
  | .nilE => []
  | .consE n e rest =>
    if hiddenName n then nonHiddenFilePairs rest
    else
      match e with
      | .fileE c => (n, c) :: nonHiddenFilePairs rest
      | .dirE _ => nonHiddenFilePairs rest

/-- The `build/resolvers` path does not exist beneath the API directory. -/
def resolverDirAbsent (api : FSList) : Bool :=
  match lookupEntry api "build" with
  | some (.dirE bl) => !(existsName bl "resolvers")
  | _ => true

theorem readResolverFiles_ok (rl : FSList) (h : allFilesNonHidden rl = true) :
    readResolverFiles rl = .ok (nonHiddenFilePairs rl) := by
  cases rl with
  | nilE => rfl
  | consE n e rest =>
    rw [allFilesNonHidden, Bool.and_eq_true] at h
    have ih := readResolverFiles_ok rest h.2
    cases hn : hiddenName n with
    | true => simp [readResolverFiles, nonHiddenFilePairs, hn, ih]
    | false =>
      rw [hn] at h
      cases e with
      | fileE c => simp [readResolverFiles, nonHiddenFilePairs, hn, ih, Except.map]
      | dirE sub => simp [isFileEntry] at h

/-- Claim C8: `loadResolvers` returns the empty map (without throwing)
whenever `build/resolvers` does not exist, and otherwise — provided the
directory holds only plain files apart from hidden entries — returns
exactly the non-hidden entries keyed by file name with their content. -/
theorem c8_loadResolvers_exact (api : FSList) :
    (resolverDirAbsent api = true → loadResolvers api = .ok []) ∧
      (∀ bl rl, lookupEntry api "build" = some (.dirE bl) →
        lookupEntry bl "resolvers" = some (.dirE rl) →
        allFilesNonHidden rl = true →
        loadResolvers api = .ok (nonHiddenFilePairs rl)) := by
  constructor
  · intro habs
    rw [resolverDirAbsent] at habs
    rw [loadResolvers]
    cases hb : lookupEntry api "build" with
    | none => rfl
    | some e =>
      rw [hb] at habs
      cases e with
      | fileE c => rfl
      | dirE bl =>
        cases hr2 : lookupEntry bl "resolvers" with
        | none => simp [hr2]
        | some e2 => simp [existsName, hr2] at habs
  · intro bl rl hb hr hall
    rw [loadResolvers, hb]
    simp only [hr]
    exact readResolverFiles_ok rl hall

/-- Witness data for C8 and C9: a resolvers directory holding one hidden
and two plain files. -/
def resolversDirEx : FSList :=
  .consE ".DS_Store" (.fileE "junk")
    (.consE "Query.listTodos.req.vtl" (.fileE "body1")
      (.consE "Todo.owner.req.vtl" (.fileE "body2") .nilE))

/-- Witness data: an API directory carrying `build/resolvers`. -/
def apiDirEx : FSList :=
  .consE "build" (.dirE (.consE "resolvers" (.dirE resolversDirEx) .nilE)) .nilE

theorem c8_loadResolvers_exact_witness :
    loadResolvers (.consE "schema.graphql" (.fileE "type T") .nilE) = .ok [] ∧
      loadResolvers apiDirEx =
        .ok [("Query.listTodos.req.vtl", "body1"), ("Todo.owner.req.vtl", "body2")] :=
  ⟨(c8_loadResolvers_exact _).1 (by decide),
    (c8_loadResolvers_exact apiDirEx).2 (.consE "resolvers" (.dirE resolversDirEx) .nilE)
      resolversDirEx rfl rfl (by decide)⟩

theorem touchFirstFile_eq (l : FSList) :
    touchFirstFile l = (listFirstFile l).map (fun pc => listAppendAt l pc.1) := by
  cases l with
  | nilE => rfl
  | consE n e rest =>
    have ihRest := touchFirstFile_eq rest
    cases e with
    | fileE c =>
      cases hn : hiddenName n with
      | true =>
        simp only [touchFirstFile, listFirstFile, hn, if_true, ihRest]
        cases hfr : listFirstFile rest with
        | none => simp [bumpIdx]
        | some pc =>
          obtain ⟨p, c2⟩ := pc
          cases p with
          | nil => simp [bumpIdx, listAppendAt, listAppendAt_nilPath]
          | cons i p2 => simp [bumpIdx, listAppendAt]
      | false =>
        simp [touchFirstFile, listFirstFile, hn, listAppendAt]
    | dirE sub =>
      have ihSub := touchFirstFile_eq sub
      cases hn : hiddenName n with
      | true =>
        simp only [touchFirstFile, listFirstFile, hn, if_true, ihRest]
        cases hfr : listFirstFile rest with
        | none => simp [bumpIdx]
        | some pc =>
          obtain ⟨p, c2⟩ := pc
          cases p with
          | nil => simp [bumpIdx, listAppendAt, listAppendAt_nilPath]
          | cons i p2 => simp [bumpIdx, listAppendAt]
      | false =>
        simp only [touchFirstFile, listFirstFile, hn, Bool.false_eq_true, if_false,
          ihSub, ihRest]
        cases hfs : listFirstFile sub with
        | some pc => simp [listAppendAt]
        | none =>
          cases hfr : listFirstFile rest with
          | none => simp [bumpIdx]
          | some pc =>
            obtain ⟨p, c2⟩ := pc
            cases p with
            | nil => simp [bumpIdx, listAppendAt, listAppendAt_nilPath]
            | cons i p2 => simp [bumpIdx, listAppendAt]

/-- Claim C9: `modifyGraphQLSchema` appends one space to at most one
file: to the schema file when it exists; otherwise — when the schema
directory exists — to the first non-hidden plain file of its depth-first
`readdir`-order traversal (no file at all when the walk finds none), all
other files being left unchanged; and it is a no-op when neither the
schema file nor the schema directory exists. -/
theorem c9_modifyGraphQLSchema_frame (l : FSList) :
    (∀ c, lookupEntry l "schema.graphql" = some (.fileE c) →
        modifyGraphQLSchema l = replaceEntry l "schema.graphql" (.fileE (c ++ " "))) ∧
      (∀ sub, lookupEntry l "schema.graphql" = none →
        lookupEntry l "schema" = some (.dirE sub) →
        modifyGraphQLSchema l =
          (match listFirstFile sub with
           | some pc => replaceEntry l "schema" (.dirE (listAppendAt sub pc.1))
           | none => l)) ∧
      (lookupEntry l "schema.graphql" = none → lookupEntry l "schema" = none →
        modifyGraphQLSchema l = l) := by
  refine ⟨?_, ?_, ?_⟩
  · intro c hc
    rw [modifyGraphQLSchema, existsName, hc]
    rfl
  · intro sub hnone hdir
    rw [modifyGraphQLSchema, existsName, hnone]
    simp only [Option.isSome_none, Bool.false_eq_true, if_false, existsName, hdir,
      Option.isSome_some, if_true]
    rw [touchFirstFile_eq]
    cases hfs : listFirstFile sub with
    | none => rfl
    | some pc => rfl
  · intro h1 h2
    rw [modifyGraphQLSchema, existsName, h1, existsName, h2]
    rfl

/-- Witness data for C9 (the specification's scenario): a schema
directory holding one hidden file and one nested subdirectory with a
single real file. -/
def schemaDirEx : FSList :=
  .consE ".hidden" (.fileE "h")
    (.consE "nested" (.dirE (.consE "real.graphql" (.fileE "type Q") .nilE)) .nilE)

theorem c9_modifyGraphQLSchema_frame_witness :
    modifyGraphQLSchema (.consE "schema" (.dirE schemaDirEx) .nilE) =
      .consE "schema"
        (.dirE (.consE ".hidden" (.fileE "h")
          (.consE "nested" (.dirE (.consE "real.graphql" (.fileE "type Q ") .nilE)) .nilE)))
        .nilE :=
  (c9_modifyGraphQLSchema_frame (.consE "schema" (.dirE schemaDirEx) .nilE)).2.1
    schemaDirEx rfl rfl

/-! ## Policy engine state

The three exported policy entry points read and write feature flags, the
CLI JSON config, project metadata, resource directories and the user's
prompt answers.  These collaborators live in amplify-cli-core /
amplify-prompts (the same repository, outside the file under review) and
are modelled from the specification as explicit state. -/

/-- Modelled from the spec: the `graphqltransformer` feature area of the
project's CLI JSON config / feature-flag registry, restricted to the
flags this file reads (`getBoolean`, `getNumber`) or writes. -/
structure Cfg where
  showfieldauthnotification : Bool
  securityEnhancementNotification : Bool
  transformerversion : Int

/-- The two persisted notification flag names used by the source. -/
inductive FlagName where
  | showfieldauthnotification : FlagName
  | securityEnhancementNotification : FlagName

/-- Write one flag of the feature area (`config.features.graphqltransformer[flagName] = value`). -/
def Cfg.setFlag (c : Cfg) : FlagName → Bool → Cfg
  | .showfieldauthnotification, v => { c with showfieldauthnotification := v }
  | .securityEnhancementNotification, v => { c with securityEnhancementNotification := v }

/-- Modelled from the spec: one resource of the project metadata's `api`
section (`stateManager.getMeta`), with its `service` kind. -/
structure ApiEntry where
  name : String
  service : String

/-- Modelled from the spec: project metadata — the `api` resource list in
enumeration order and the truthiness of `meta.auth`. -/
structure Meta where
  api : List ApiEntry
  auth : Bool

/-- Modelled from the spec: an existing API resource directory — the
parsed schema the schema reader (`readProjectConfiguration` + `parse`)
yields for it, and its file tree. -/
structure ApiDirContent where
  doc : Doc
  tree : FSList

/-- The ambient state a policy run starts from: the live feature-flag
registry values, the CLI JSON config when the file exists
(`stateManager.getCLIJSON` with `throwIfNotExist: false`), project
metadata, the existing API resource directories keyed by resource name
(`pathManager.getResourceDirectoryPath` is injective in the name), the
pending interactive answers, and the prompt / telemetry counters. -/
structure St where
  live : Cfg
  config : Option Cfg
  meta : Option Meta
  dirs : List (String × ApiDirContent)
  answers : List Bool
  prompts : Nat
  telemetry : Nat

/-- Modelled from the spec: outcome of a policy run. `exited code s`
embeds `exitOnNextTick(code)` — per the specification the abort path is
an immediate, unconditional halt of the whole process, so nothing after
it contributes observable state.  `err` embeds a rejected promise. -/
inductive PolicyResult (α : Type) where
  | ok : α → St → PolicyResult α
  | exited : Nat → St → PolicyResult α
  | err : St → PolicyResult α

/-- Source `setNotificationFlag` (lines 9-22): ensure the flag's feature
exists, read the CLI JSON tolerating absence; only when the config file
exists, write the flag, persist, and reload the live feature-flag values
from it.  With no config file nothing changes. -/
def setNotificationFlag (s : St) (f : FlagName) (v : Bool) : St :=
  match s.config with
  | none => s
  | some c =>
    let c2 := c.setFlag f v
    { s with config := some c2, live := c2 }

/-- Names of the metadata's `api` resources whose `service` is
`AppSync`, in enumeration order (lines 125-127 and 260-262). -/
def appSyncApiNames (s : St) : List String :=
  (((s.meta.map Meta.api).getD []).filter (fun a => a.service == "AppSync")).map ApiEntry.name

/-- The resource directory of the named API, when it exists on disk. -/
def lookupApiDir (s : St) (n : String) : Option ApiDirContent :=
  (s.dirs.find? (fun p => p.1 == n)).map (fun p => p.2)

/-- Source `containsGraphQLApi` (lines 121-143): false when no AppSync
API is listed; otherwise whether the first listed AppSync API's resource
directory exists. -/
def containsGraphQLApi (s : St) : Bool :=
  match appSyncApiNames s with
  | [] => false
  | n :: _ => (lookupApiDir s n).isSome

/-- Source `getApiResourceDir` (lines 145-162): the first AppSync API's
resource directory, guarded by `containsGraphQLApi`. -/
def getApiResourceDir (s : St) : Option String :=
  if containsGraphQLApi s then
    match appSyncApiNames s with
    | [] => none
    | n :: _ => some n
  else none

/-- Modelled from the spec: the schema reader on a directory returned by
`getApiResourceDir` (which guarantees existence; the default is never
reached on those paths). -/
def getDirD (s : St) (n : String) : ApiDirContent :=
  (lookupApiDir s n).getD ⟨⟨[]⟩, .nilE⟩

/-- Modelled from the spec: `prompter.yesOrNo` consumes the next pending
answer (an exhausted answer list defaults to consent) and counts one
prompt. -/
def promptYesNo (s : St) : Bool × St :=
  match s.answers with
  | [] => (true, { s with prompts := s.prompts + 1 })
  | a :: rest => (a, { s with answers := rest, prompts := s.prompts + 1 })

/-- Modelled from the spec: `context.usageData.emitSuccess()` counts one
telemetry success event. -/
def emitSuccess (s : St) : St := { s with telemetry := s.telemetry + 1 }

/-- `modifyGraphQLSchema(apiResourceDir)` acting on the named API's tree. -/
def touchApiDir (s : St) (n : String) : St :=
  { s with dirs := s.dirs.map (fun p =>
      if p.1 == n then (p.1, { p.2 with tree := modifyGraphQLSchema p.2.tree }) else p) }

/-- Modelled from the spec: `collectDirectivesByType`
(graphql-transformer-core) groups each type definition's directives
under its type name. -/
def collectDirectivesByType (d : Doc) : List (String × List Directive) :=
  d.definitions.map (fun x => (x.name, x.directives))

/-- Modelled from the spec: `collectDirectivesByTypeNames`
(graphql-transformer-core) maps each type name to the set of directive
names present on it — on the type itself or on its fields (the
`primaryKey` directive of the trigger condition is a field-level
directive). -/
def collectDirectivesByTypeNames (d : Doc) : List (String × List String) :=
  d.definitions.map (fun x =>
    (x.name, x.directives.map Directive.name ++
      x.fields.flatMap (fun f => f.directives.map Directive.name)))

/-- Source `notifyFieldAuthSecurityChange` (lines 24-60). -/
def notifyFieldAuthSecurityChange (s : St) : PolicyResult Bool :=
  if !s.live.showfieldauthnotification then .ok false s
  else
    match getApiResourceDir s with
    | none => .ok false (setNotificationFlag s .showfieldauthnotification false)
    | some n =>
      let d := getDirD s n
      let dm := collectDirectivesByType d.doc
      let fd := hasFieldAuthDirectives d.doc
      if displayAuthNotification s.live.transformerversion dm fd then
        match promptYesNo s with
        | (ans, s1) =>
          if !ans then .exited 0 (emitSuccess s1)
          else .ok true (setNotificationFlag (touchApiDir s1 n) .showfieldauthnotification false)
      else .ok false (setNotificationFlag s .showfieldauthnotification false)

/-- Source `notifyListQuerySecurityChange` (lines 81-119). -/
def notifyListQuerySecurityChange (s : St) : PolicyResult Bool :=
  match getApiResourceDir s with
  | none => .ok false s
  | some n =>
    let d := getDirD s n
    match loadResolvers d.tree with
    | .error _ => .err s
    | .ok resolvers =>
      if (resolversToSecure resolvers).isEmpty then .ok false s
      else if hasV2AuthDirectives s.live.transformerversion d.doc then
        match promptYesNo s with
        | (ans, s1) =>
          if !ans then .exited 0 (emitSuccess s1)
          else .ok true (touchApiDir s1 n)
      else .ok false s

/-- Source `notifySecurityEnhancement` (lines 255-303). -/
def notifySecurityEnhancement (s : St) : PolicyResult Unit :=
  if !s.live.securityEnhancementNotification then .ok () s
  else
    match appSyncApiNames s with
    | [n] =>
      match lookupApiDir s n with
      | none => .ok () (setNotificationFlag s .securityEnhancementNotification false)
      | some d =>
        if ((s.meta.map Meta.auth).getD false) &&
            (collectDirectivesByTypeNames d.doc).any
              (fun p => p.2.contains "auth" && p.2.contains "primaryKey") then
          match promptYesNo s with
          | (ans, s1) =>
            if !ans then .exited 0 (emitSuccess s1)
            else .ok () (setNotificationFlag (touchApiDir s1 n) .securityEnhancementNotification false)
        else .ok () (setNotificationFlag s .securityEnhancementNotification false)
    | _ => .ok () (setNotificationFlag s .securityEnhancementNotification false)

/-! ## Concrete fixtures for the policy claims -/

/-- A document whose single type `Todo` has a `model` directive with
`subscriptions: null` and one non-nullable field carrying `auth`. -/
def docFieldAuth : Doc :=
  ⟨[⟨"Todo", [⟨"model", [⟨"subscriptions", .nullV⟩]⟩],
    [⟨"id", true, [⟨"auth", []⟩]⟩]⟩]⟩

/-- A document whose single type `Todo` carries a type-level `auth`
directive. -/
def docV2Auth : Doc := ⟨[⟨"Todo", [⟨"auth", []⟩, ⟨"model", []⟩], []⟩]⟩

/-- A document whose single type `Todo` carries `auth` on the type and
`primaryKey` on a field. -/
def docAuthKey : Doc :=
  ⟨[⟨"Todo", [⟨"auth", []⟩], [⟨"id", true, [⟨"primaryKey", []⟩]⟩]⟩]⟩

/-- An API directory tree holding one guard-less list-query resolver
under `build/resolvers` (and no schema file or directory). -/
def treeListQuery : FSList :=
  .consE "build"
    (.dirE (.consE "resolvers"
      (.dirE (.consE "Query.listTodos.req.vtl" (.fileE setLine) .nilE)) .nilE)) .nilE

/-- Field-auth policy state: flag armed, one AppSync API whose schema
triggers the field-auth condition, transformer v2. -/
def stFieldAuth (answers : List Bool) : St :=
  { live := ⟨true, false, 2⟩, config := some ⟨true, false, 2⟩,
    meta := some ⟨[⟨"myapi", "AppSync"⟩], false⟩,
    dirs := [("myapi", ⟨docFieldAuth, .nilE⟩)],
    answers := answers, prompts := 0, telemetry := 0 }

/-- List-query policy state: one AppSync API with an unsafe list-query
resolver and a type-level `auth` directive, transformer v2. -/
def stListQuery (answers : List Bool) : St :=
  { live := ⟨false, false, 2⟩, config := some ⟨false, false, 2⟩,
    meta := some ⟨[⟨"myapi", "AppSync"⟩], false⟩,
    dirs := [("myapi", ⟨docV2Auth, treeListQuery⟩)],
    answers := answers, prompts := 0, telemetry := 0 }

/-- Primary-key policy state: flag armed, one AppSync API whose schema
has `auth` and `primaryKey`, an `auth` resource in metadata. -/
def stSecurityEnh (answers : List Bool) : St :=
  { live := ⟨false, true, 2⟩, config := some ⟨false, true, 2⟩,
    meta := some ⟨[⟨"myapi", "AppSync"⟩], true⟩,
    dirs := [("myapi", ⟨docAuthKey, .nilE⟩)],
    answers := answers, prompts := 0, telemetry := 0 }

/-- Claim C1: in every run of the field-auth or list-query policy whose
trigger condition holds, answering "No" ends the process with exit code
0 after exactly one telemetry success event, with the resource
directories (hence the schema) untouched and no flag written, while
answering "Yes" invokes the schema touch on the API directory and
returns "schema modified" (`true`). -/
theorem c1_decline_aborts_untouched :
    (∀ s n rest, s.live.showfieldauthnotification = true →
      getApiResourceDir s = some n →
      displayAuthNotification s.live.transformerversion
        (collectDirectivesByType (getDirD s n).doc)
        (hasFieldAuthDirectives (getDirD s n).doc) = true →
      s.answers = false :: rest →
      notifyFieldAuthSecurityChange s =
        .exited 0 { s with answers := rest, prompts := s.prompts + 1,
                           telemetry := s.telemetry + 1 }) ∧
    (∀ s n rest, s.live.showfieldauthnotification = true →
      getApiResourceDir s = some n →
      displayAuthNotification s.live.transformerversion
        (collectDirectivesByType (getDirD s n).doc)
        (hasFieldAuthDirectives (getDirD s n).doc) = true →
      s.answers = true :: rest →
      notifyFieldAuthSecurityChange s =
        .ok true (setNotificationFlag
          (touchApiDir { s with answers := rest, prompts := s.prompts + 1 } n)
          .showfieldauthnotification false)) ∧
    (∀ s n rest resolvers, getApiResourceDir s = some n →
      loadResolvers (getDirD s n).tree = .ok resolvers →
      (resolversToSecure resolvers).isEmpty = false →
      hasV2AuthDirectives s.live.transformerversion (getDirD s n).doc = true →
      s.answers = false :: rest →
      notifyListQuerySecurityChange s =
        .exited 0 { s with answers := rest, prompts := s.prompts + 1,
                           telemetry := s.telemetry + 1 }) ∧
    (∀ s n rest resolvers, getApiResourceDir s = some n →
      loadResolvers (getDirD s n).tree = .ok resolvers →
      (resolversToSecure resolvers).isEmpty = false →
      hasV2AuthDirectives s.live.transformerversion (getDirD s n).doc = true →
      s.answers = true :: rest →
      notifyListQuerySecurityChange s =
        .ok true (touchApiDir { s with answers := rest, prompts := s.prompts + 1 } n)) := by
  refine ⟨?_, ?_, ?_, ?_⟩
  · intro s n rest hflag hdir htrig hans
    simp [notifyFieldAuthSecurityChange, hflag, hdir, htrig, promptYesNo, hans, emitSuccess]
  · intro s n rest hflag hdir htrig hans
    simp [notifyFieldAuthSecurityChange, hflag, hdir, htrig, promptYesNo, hans]
  · intro s n rest resolvers hdir hload hsec hv2 hans
    simp [notifyListQuerySecurityChange, hdir, hload, hsec, hv2, promptYesNo, hans,
      emitSuccess]
  · intro s n rest resolvers hdir hload hsec hv2 hans
    simp [notifyListQuerySecurityChange, hdir, hload, hsec, hv2, promptYesNo, hans]

theorem c1_decline_aborts_untouched_witness :
    notifyFieldAuthSecurityChange (stFieldAuth [false]) =
        .exited 0 { stFieldAuth [false] with answers := [], prompts := 1, telemetry := 1 } ∧
      notifyFieldAuthSecurityChange (stFieldAuth [true]) =
        .ok true (setNotificationFlag
          (touchApiDir { stFieldAuth [true] with answers := [], prompts := 1 } "myapi")
          .showfieldauthnotification false) ∧
      notifyListQuerySecurityChange (stListQuery [false]) =
        .exited 0 { stListQuery [false] with answers := [], prompts := 1, telemetry := 1 } ∧
      notifyListQuerySecurityChange (stListQuery [true]) =
        .ok true (touchApiDir { stListQuery [true] with answers := [], prompts := 1 } "myapi") :=
  ⟨c1_decline_aborts_untouched.1 (stFieldAuth [false]) "myapi" [] rfl rfl rfl rfl,
    c1_decline_aborts_untouched.2.1 (stFieldAuth [true]) "myapi" [] rfl rfl rfl rfl,
    c1_decline_aborts_untouched.2.2.1 (stListQuery [false]) "myapi" []
      [("Query.listTodos.req.vtl", setLine)] rfl rfl rfl rfl rfl,
    c1_decline_aborts_untouched.2.2.2 (stListQuery [true]) "myapi" []
      [("Query.listTodos.req.vtl", setLine)] rfl rfl rfl rfl rfl⟩

/-! ## Flag-clearing lemmas for the stateful policies -/

theorem setNotificationFlag_showFalse (s : St) (h : s.config.isSome = true) :
    (setNotificationFlag s .showfieldauthnotification false).live.showfieldauthnotification
      = false := by
  unfold setNotificationFlag
  cases hc : s.config with
  | none => rw [hc] at h; simp at h
  | some c => simp [Cfg.setFlag]

theorem setNotificationFlag_secFalse (s : St) (h : s.config.isSome = true) :
    (setNotificationFlag s
        .securityEnhancementNotification false).live.securityEnhancementNotification
      = false := by
  unfold setNotificationFlag
  cases hc : s.config with
  | none => rw [hc] at h; simp at h
  | some c => simp [Cfg.setFlag]

theorem touchApiDir_config (s : St) (n : String) : (touchApiDir s n).config = s.config := rfl

theorem touchApiDir_live (s : St) (n : String) : (touchApiDir s n).live = s.live := rfl

theorem promptYesNo_config (s : St) : (promptYesNo s).2.config = s.config := by
  unfold promptYesNo
  cases s.answers <;> rfl

theorem promptYesNo_live (s : St) : (promptYesNo s).2.live = s.live := by
  unfold promptYesNo
  cases s.answers <;> rfl

theorem fieldAuth_ok_clears (s : St) (b : Bool) (s1 : St) (hcfg : s.config.isSome = true)
    (hrun : notifyFieldAuthSecurityChange s = .ok b s1) :
    s1.live.showfieldauthnotification = false := by
  unfold notifyFieldAuthSecurityChange at hrun
  cases hflag : s.live.showfieldauthnotification with
  | false =>
    rw [hflag] at hrun
    simp only [Bool.not_false, if_true, PolicyResult.ok.injEq] at hrun
    obtain ⟨-, rfl⟩ := hrun
    exact hflag
  | true =>
    rw [hflag] at hrun
    simp only [Bool.not_true, Bool.false_eq_true, if_false] at hrun
    cases hdir : getApiResourceDir s with
    | none =>
      rw [hdir] at hrun
      simp only [PolicyResult.ok.injEq] at hrun
      obtain ⟨-, rfl⟩ := hrun
      exact setNotificationFlag_showFalse s hcfg
    | some n =>
      rw [hdir] at hrun
      simp only [] at hrun
      split at hrun
      · rcases hps : promptYesNo s with ⟨ans, s2⟩
        rw [hps] at hrun
        have hs2 : s2.config = s.config := by rw [← promptYesNo_config s, hps]
        cases ans with
        | false => simp at hrun
        | true =>
          simp only [Bool.not_true, Bool.false_eq_true, if_false,
            PolicyResult.ok.injEq] at hrun
          obtain ⟨-, rfl⟩ := hrun
          refine setNotificationFlag_showFalse _ ?_
          rw [touchApiDir_config, hs2]
          exact hcfg
      · simp only [PolicyResult.ok.injEq] at hrun
        obtain ⟨-, rfl⟩ := hrun
        exact setNotificationFlag_showFalse s hcfg

theorem secEnh_ok_clears (s : St) (s1 : St) (hcfg : s.config.isSome = true)
    (hrun : notifySecurityEnhancement s = .ok () s1) :
    s1.live.securityEnhancementNotification = false := by
  unfold notifySecurityEnhancement at hrun
  cases hflag : s.live.securityEnhancementNotification with
  | false =>
    rw [hflag] at hrun
    simp only [Bool.not_false, if_true, PolicyResult.ok.injEq] at hrun
    obtain ⟨-, rfl⟩ := hrun
    exact hflag
  | true =>
    rw [hflag] at hrun
    simp only [Bool.not_true, Bool.false_eq_true, if_false] at hrun
    split at hrun
    · next n heq =>
      cases hd : lookupApiDir s n with
      | none =>
        rw [hd] at hrun
        simp only [PolicyResult.ok.injEq] at hrun
        obtain ⟨-, rfl⟩ := hrun
        exact setNotificationFlag_secFalse s hcfg
      | some d =>
        rw [hd] at hrun
        simp only [] at hrun
        split at hrun
        · rcases hps : promptYesNo s with ⟨ans, s2⟩
          rw [hps] at hrun
          have hs2 : s2.config = s.config := by rw [← promptYesNo_config s, hps]
          cases ans with
          | false => simp at hrun
          | true =>
            simp only [Bool.not_true, Bool.false_eq_true, if_false,
              PolicyResult.ok.injEq] at hrun
            obtain ⟨-, rfl⟩ := hrun
            refine setNotificationFlag_secFalse _ ?_
            rw [touchApiDir_config, hs2]
            exact hcfg
        · simp only [PolicyResult.ok.injEq] at hrun
          obtain ⟨-, rfl⟩ := hrun
          exact setNotificationFlag_secFalse s hcfg
    · simp only [PolicyResult.ok.injEq] at hrun
      obtain ⟨-, rfl⟩ := hrun
      exact setNotificationFlag_secFalse s hcfg

/-! ## Claims C2, C4, C10 -/

/-- State after the first consented list-query run on `stListQuery
[true, true]` (the tree has no schema entry, so the touch is the
identity). -/
def stListQueryRun1 : St := { stListQuery [true, true] with answers := [true], prompts := 1 }

/-- State after the second consented list-query run. -/
def stListQueryRun2 : St := { stListQuery [true, true] with answers := [], prompts := 2 }

/-- Claim C2 counterexample: `notifyListQuerySecurityChange` has no
backing flag; on a project with an unsafe list-query resolver and a v2
`auth` schema it prompts on the first call and prompts again on the
immediately following call, returning "schema modified" both times —
the second call neither returns false nor skips the prompt. -/
theorem c2_listQuery_prompts_twice :
    notifyListQuerySecurityChange (stListQuery [true, true]) = .ok true stListQueryRun1 ∧
      notifyListQuerySecurityChange stListQueryRun1 = .ok true stListQueryRun2 ∧
      stListQueryRun2.prompts = 2 :=
  ⟨rfl, rfl, rfl⟩

/-- Claim C2 amended: for the two flag-gated policies
(`notifyFieldAuthSecurityChange`, `notifySecurityEnhancement`) and a
project whose CLI config file exists, a completed (non-exiting) first
call leaves the backing flag cleared, so an immediately following second
call returns "not triggered" with no prompt and no state change; the
list-query policy has no backing flag and can prompt on every call. -/
theorem c2_flagGated_secondCall_noop :
    (∀ s b s1, s.config.isSome = true →
      notifyFieldAuthSecurityChange s = .ok b s1 →
      notifyFieldAuthSecurityChange s1 = .ok false s1) ∧
    (∀ s s1, s.config.isSome = true →
      notifySecurityEnhancement s = .ok () s1 →
      notifySecurityEnhancement s1 = .ok () s1) := by
  constructor
  · intro s b s1 hcfg hrun
    have hflag1 := fieldAuth_ok_clears s b s1 hcfg hrun
    simp [notifyFieldAuthSecurityChange, hflag1]
  · intro s s1 hcfg hrun
    have hflag1 := secEnh_ok_clears s s1 hcfg hrun
    simp [notifySecurityEnhancement, hflag1]

/-- A project with the field-auth flag armed but no API resource. -/
def stNoApi : St :=
  { live := ⟨true, true, 2⟩, config := some ⟨true, true, 2⟩, meta := none,
    dirs := [], answers := [], prompts := 0, telemetry := 0 }

/-- `stNoApi` after the field-auth policy cleared its flag. -/
def stNoApiCleared : St :=
  { stNoApi with live := ⟨false, true, 2⟩, config := some ⟨false, true, 2⟩ }

/-- `stSecurityEnh [true]` after its consented run: prompt consumed,
flag cleared. -/
def stSecurityEnhDone : St :=
  { stSecurityEnh [true] with answers := [], prompts := 1, live := ⟨false, false, 2⟩, config := some ⟨false, false, 2⟩ }

theorem c2_flagGated_secondCall_noop_witness :
    notifyFieldAuthSecurityChange stNoApiCleared = .ok false stNoApiCleared ∧
      notifySecurityEnhancement stSecurityEnhDone = .ok () stSecurityEnhDone :=
  ⟨c2_flagGated_secondCall_noop.1 stNoApi false stNoApiCleared rfl rfl,
    c2_flagGated_secondCall_noop.2 (stSecurityEnh [true]) stSecurityEnhDone rfl rfl⟩

/-- Claim C4 counterexample: with the gating flag true, one AppSync API,
an existing resource directory, an `auth` resource and an
`auth`+`primaryKey` type, the user is prompted; declining ends the run
by process exit — and the gating flag is still true: the prompted-decline
path does not clear the flag. -/
theorem c4_decline_leaves_flag_set :
    notifySecurityEnhancement (stSecurityEnh [false]) =
        .exited 0 { stSecurityEnh [false] with answers := [], prompts := 1, telemetry := 1 } ∧
      ({ stSecurityEnh [false] with answers := [], prompts := 1, telemetry := 1 } :
          St).live.securityEnhancementNotification = true :=
  ⟨rfl, rfl⟩

/-- Claim C4 amended: when `notifySecurityEnhancement` runs with its
gating flag true and the CLI config file exists, every normally
returning path — not exactly one AppSync API, missing resource
directory, failed trigger condition, or consented prompt — ends with the
flag cleared; the remaining path, a declined prompt, terminates the
process with exit code 0 leaving the flags (the gate included)
untouched. -/
theorem c4_returning_paths_clear_flag (s : St) (s1 : St)
    (hgate : s.live.securityEnhancementNotification = true)
    (hcfg : s.config.isSome = true) :
    (notifySecurityEnhancement s = .ok () s1 →
      s1.live.securityEnhancementNotification = false) ∧
    (∀ code, notifySecurityEnhancement s = .exited code s1 →
      code = 0 ∧ s1.live = s.live) := by
  constructor
  · intro hrun
    exact secEnh_ok_clears s s1 hcfg hrun
  · intro code hrun
    unfold notifySecurityEnhancement at hrun
    rw [hgate] at hrun
    simp only [Bool.not_true, Bool.false_eq_true, if_false] at hrun
    split at hrun
    · next n heq =>
      cases hd : lookupApiDir s n with
      | none => rw [hd] at hrun; simp at hrun
      | some d =>
        rw [hd] at hrun
        simp only [] at hrun
        split at hrun
        · rcases hps : promptYesNo s with ⟨ans, s2⟩
          rw [hps] at hrun
          have hs2 : s2.live = s.live := by rw [← promptYesNo_live s, hps]
          cases ans with
          | false =>
            simp only [Bool.not_false, if_true, PolicyResult.exited.injEq] at hrun
            obtain ⟨rfl, rfl⟩ := hrun
            exact ⟨rfl, hs2⟩
          | true => simp at hrun
        · simp at hrun
    · simp at hrun

theorem c4_returning_paths_clear_flag_witness :
    (setNotificationFlag stNoApi
        .securityEnhancementNotification false).live.securityEnhancementNotification
      = false :=
  (c4_returning_paths_clear_flag stNoApi
    (setNotificationFlag stNoApi .securityEnhancementNotification false) rfl rfl).1 rfl

/-- A project whose metadata lists two AppSync APIs; the first one's
resource directory exists. -/
def stTwoApis : St :=
  { live := ⟨true, true, 2⟩, config := some ⟨true, true, 2⟩,
    meta := some ⟨[⟨"api1", "AppSync"⟩, ⟨"api2", "AppSync"⟩], true⟩,
    dirs := [("api1", ⟨docAuthKey, .nilE⟩)], answers := [], prompts := 0, telemetry := 0 }

/-- Claim C10: with more than one AppSync API in metadata,
`getApiResourceDir` — the directory resolution both
`notifyFieldAuthSecurityChange` and `notifyListQuerySecurityChange`
rely on — does not bail out: it returns the resource directory of the
first AppSync API in metadata enumeration order whenever that directory
exists on disk; `notifySecurityEnhancement`, in contrast, requires
exactly one AppSync API and with two of them only clears its flag,
prompting nobody and touching nothing. -/
theorem c10_first_api_vs_exactly_one :
    (∀ s n1 n2 rest, appSyncApiNames s = n1 :: n2 :: rest →
      (lookupApiDir s n1).isSome = true →
      getApiResourceDir s = some n1) ∧
    (∀ s n1 n2, s.live.securityEnhancementNotification = true →
      appSyncApiNames s = [n1, n2] →
      notifySecurityEnhancement s =
        .ok () (setNotificationFlag s .securityEnhancementNotification false)) := by
  constructor
  · intro s n1 n2 rest happ hdir
    unfold getApiResourceDir containsGraphQLApi
    rw [happ]
    simp [hdir]
  · intro s n1 n2 hgate happ
    unfold notifySecurityEnhancement
    rw [hgate, happ]
    simp

theorem c10_first_api_vs_exactly_one_witness :
    getApiResourceDir stTwoApis = some "api1" ∧
      notifySecurityEnhancement stTwoApis =
        .ok () (setNotificationFlag stTwoApis .securityEnhancementNotification false) :=
  ⟨c10_first_api_vs_exactly_one.1 stTwoApis "api1" "api2" [] rfl rfl,
    c10_first_api_vs_exactly_one.2 stTwoApis "api1" "api2" rfl rfl⟩

end AuthNotify
